import Mathlib

/-
Verification development for the buddy memory toolkit (src/buddy.c, with
TEMP_ALLOC_BUFSIZE taken from src/buddy.h).  The embedding is byte-level:
memory is a function from absolute addresses to byte values, u64 struct
fields are stored little-endian, and each allocator strategy is translated
directly from its C procedure.
-/

set_option autoImplicit false

namespace Buddy

/-- Modulus of u64 arithmetic. -/
def W : Nat := 2 ^ 64

/-- TEMP_ALLOC_BUFSIZE, defined as `MB(8)` in src/buddy.h. -/
def CAP : Nat := 8 * 1024 * 1024

/-- TEMP_BLOCK_SIGNATURE from src/buddy.c. -/
def TEMP_SIG : Nat := 0xDEADDECAFC0FFEE7

/-- POOL_BLOCK_SIGNATURE from src/buddy.c. -/
def POOL_SIG : Nat := 0xDAEDDE0AFC1FDE97

/-- ARENA_BLOCK_SIGNATURE from src/buddy.c. -/
def ARENA_SIG : Nat := 0xBABABEBEF000000D

/-- Byte memory: a log of byte writes (newest first) over a base content
function.  `mread` gives the address-to-byte map this represents; the log
representation only makes evaluation structural. -/
structure Mem where
  writes : List (Nat × Nat)
  base : Nat → Nat

/-- Look an address up in a write log, falling back to the base content. -/
def lookupW : List (Nat × Nat) → (Nat → Nat) → Nat → Nat
  | [], b, x => b x
  | (a, v) :: rest, b, x => if x = a then v else lookupW rest b x

/-- Read one byte. -/
def mread (m : Mem) (x : Nat) : Nat :=
  lookupW m.writes m.base x

/-- Write one byte (`u8` store, value reduced mod 256). -/
def store (m : Mem) (a v : Nat) : Mem :=
  { m with writes := (a, v % 256) :: m.writes }

/-- One iteration of the `copy_memory` loop: `dest[n] = src[n]` on the
current memory. -/
def copyStep (m : Mem) (dest src n : Nat) : Mem :=
  store m (dest + n) (mread m (src + n))

/-- `copy_memory(dest, src, n)` from src/buddy.c: a forward byte-by-byte
copy; byte `k` is written after bytes `0..k-1` and reads the current memory,
as the C loop does. -/
def copyMemory (m : Mem) (dest src : Nat) : Nat → Mem
  | 0 => m
  | n + 1 => copyStep (copyMemory m dest src n) dest src n

/-- Forward copy of literal bytes (a C string constant in read-only data)
into memory, as `copy_memory` does when the source is a literal. -/
def copyList (m : Mem) (dest : Nat) : List Nat → Mem
  | [] => m
  | b :: bs => copyList (store m dest b) (dest + 1) bs

/-- `zero_memory(p, n)` from src/buddy.c. -/
def zeroMemory (m : Mem) (p : Nat) : Nat → Mem
  | 0 => m
  | n + 1 => store (zeroMemory m p n) (p + n) 0

/-- Load a u64 field stored little-endian at address `a`. -/
def loadU64 (m : Mem) (a : Nat) : Nat :=
  mread m a + 256 * (mread m (a + 1) + 256 * (mread m (a + 2) + 256 * (mread m (a + 3) +
    256 * (mread m (a + 4) + 256 * (mread m (a + 5) + 256 * (mread m (a + 6) +
    256 * mread m (a + 7)))))))

/-- Store a u64 field little-endian at address `a` (a C struct field
assignment such as `block->signature = ...`). -/
def storeU64 (m : Mem) (a v : Nat) : Mem :=
  store (store (store (store (store (store (store (store m
    a v)
    (a + 1) (v / 256))
    (a + 2) (v / 256 ^ 2))
    (a + 3) (v / 256 ^ 3))
    (a + 4) (v / 256 ^ 4))
    (a + 5) (v / 256 ^ 5))
    (a + 6) (v / 256 ^ 6))
    (a + 7) (v / 256 ^ 7)

/-- Outcome of an allocator call: a non-null pointer, a NULL return, or a
`panic` (which in the C program prints and exits the process). -/
inductive Res where
  | ptr (p : Nat)
  | null
  | fatal (msg : String)
deriving DecidableEq

def msgTempFull : String := "temporary allocation buffer is full"

def msgPoolGrowFail : String := "pool failed to realloc"

def msgPoolShrink : String := "pool: cannot realloc to smaller size"

def msgCopyDestNull : String := "copy_memory: destination is null"

def msgScenario : String := "scenario setup failed"

def msgPoolInit : String := "cannot init pool smaller than header"

/-- State of the temporary (bump) allocator: `head` is the absolute value of
the pointer `_temp_alloc_head`; the buffer `_temp_alloc_buffer` starts at an
absolute base address `B` (a parameter of every operation), so the head
offset is `head - B`.  `growths` is a ghost event counter, incremented only
when the pool allocator grows its backing region; it has no effect on any
behavior. -/
structure TempState where
  head : Nat
  mem : Mem
  growths : Nat

/-- `_align_to_8bytes` from src/buddy.c: `ptr + (8 - ptr % 8)`; note that an
already aligned pointer is advanced by a full 8 bytes. -/
def alignTo8 (p : Nat) : Nat := p + (8 - p % 8)

/-- `temporary_allocator_proc`, ALLOCATOR_MSG_ALLOC case (src/buddy.c:130-149):
if the unaligned head plus `size + sizeof(BlockHeader)` exceeds
TEMP_ALLOC_BUFSIZE, panic; otherwise align the head, write the block header
(signature, size), advance the head past the block, and return the pointer
just past the header. -/
def tempAlloc (B size : Nat) (st : TempState) : Res × TempState :=
  let actual := (size + 16) % W
  if (st.head - B + actual) % W > CAP then
    (Res.fatal msgTempFull, st)
  else
    let h := alignTo8 st.head
    let m := storeU64 (storeU64 st.mem h TEMP_SIG) (h + 8) size
    (Res.ptr (h + 16), { st with head := h + actual, mem := m })

/-- ALLOCATOR_MSG_ZERO_ALLOC case: allocate, then zero-fill on success. -/
def tempZeroAlloc (B size : Nat) (st : TempState) : Res × TempState :=
  match tempAlloc B size st with
  | (Res.ptr p, st') => (Res.ptr p, { st' with mem := zeroMemory st'.mem p size })
  | r => r

/-- ALLOCATOR_MSG_REALLOC case (src/buddy.c:161-176): NULL old pointer or a
block-header signature other than TEMP_BLOCK_SIGNATURE returns NULL;
otherwise allocate fresh and copy `block->size` bytes (the header is re-read
from memory after the allocation, as the C code does). -/
def tempRealloc (B size old : Nat) (st : TempState) : Res × TempState :=
  if old = 0 then (Res.null, st)
  else if loadU64 st.mem (old - 16) ≠ TEMP_SIG then (Res.null, st)
  else
    match tempAlloc B size st with
    | (Res.ptr p, st') =>
      let oldsize := loadU64 st'.mem (old - 8)
      (Res.ptr p, { st' with mem := copyMemory st'.mem p old oldsize })
    | r => r

/-- `reset_temp_memory` from src/buddy.c. -/
def resetTempMemory (B : Nat) (st : TempState) : TempState :=
  { st with head := B }

/-- `temp_mark` from src/buddy.c: the current head offset. -/
def tempMark (B : Nat) (st : TempState) : Nat := st.head - B

/-- `temp_restore_mark` from src/buddy.c: sets the head pointer to
`_temp_alloc_buffer + id`, with no bounds check. -/
def tempRestoreMark (B id : Nat) (st : TempState) : TempState :=
  { st with head := B + id }

/-- State of an `Arena` (src/buddy.h): `asize` is the `size` field, `pos`
the bump position, `base` the absolute address of `a->mem`, and `mem` the
byte memory holding the arena region. -/
structure ArenaState where
  asize : Nat
  pos : Nat
  base : Nat
  mem : Mem

/-- `arena_alloc` from src/buddy.c:341-350: fail with NULL if
`pos + size > size`, else return `mem + pos` and advance `pos`. -/
def arenaAlloc (size : Nat) (a : ArenaState) : Option (Nat × ArenaState) :=
  if (a.pos + size) % W > a.asize then none
  else some (a.base + a.pos, { a with pos := (a.pos + size) % W })

/-- `arena_allocator_proc`, ALLOCATOR_MSG_ALLOC case: allocate
`size + sizeof(BlockHeader)` from the arena, write the header (size, then
signature, in source order), and return the pointer past the header. -/
def arenaProcAlloc (size : Nat) (a : ArenaState) : Res × ArenaState :=
  match arenaAlloc ((size + 16) % W) a with
  | none => (Res.null, a)
  | some (b, a') =>
    let m := storeU64 (storeU64 a'.mem (b + 8) size) b ARENA_SIG
    (Res.ptr (b + 16), { a' with mem := m })

/-- `arena_allocator_proc`, ALLOCATOR_MSG_REALLOC case (src/buddy.c:397-412):
NULL old pointer or a signature other than ARENA_BLOCK_SIGNATURE returns
NULL; otherwise allocate fresh and copy `block->size` bytes (header re-read
after the allocation, as in the source). -/
def arenaRealloc (size old : Nat) (a : ArenaState) : Res × ArenaState :=
  if old = 0 then (Res.null, a)
  else if loadU64 a.mem (old - 16) ≠ ARENA_SIG then (Res.null, a)
  else
    match arenaProcAlloc size a with
    | (Res.ptr p, a') =>
      let oldsize := loadU64 a'.mem (old - 8)
      (Res.ptr p, { a' with mem := copyMemory a'.mem p old oldsize })
    | r => r

/-- Modelled from the spec: the `_pool` struct declaration and the `Pool`
typedef are not present under src/ (only their uses in src/buddy.c are).
Following the spec's pool record `{ backing_allocator, memory, capacity,
size }` and the initializer order in `get_pool_allocator`, the layout used
here is: the backing `Allocator` value at offset 0 (its `data` pointer at
offset 0 and its `proc` pointer at offset 8, the latter encoded as 1 for
`temporary_allocator_proc`), `cap` at offset 16, `size` at offset 24, and
`mem` at offset 32, so `sizeof(_pool)` = 40.  The backing allocator of the
modelled pools is the temporary allocator, whose state the pool operations
thread through. -/
def POOL_HDR : Nat := 40

/-- The growth check at the top of `pool_allocator_proc`
(src/buddy.c:227-235), run before every message: read the pool fields from
`a.data` (address `d`); if `pool->size + size + hdr_size > pool->cap`,
reallocate the pool block itself to `pool->cap * 2` through the backing
allocator and continue with the returned pointer as the local `pool`
variable (note that neither `a.data` nor the stored `cap` is updated);
a NULL result from the reallocation panics via `assert_not_null`.
The ghost counter `growths` records each taken growth branch. -/
def poolPre (B size d : Nat) (st : TempState) : Sum (Res × TempState) (Nat × TempState) :=
  let cap := loadU64 st.mem (d + 16)
  let psize := loadU64 st.mem (d + 24)
  if (psize + size + 16) % W > cap then
    match tempRealloc B ((cap * 2) % W) d { st with growths := st.growths + 1 } with
    | (Res.ptr p, st') => Sum.inr (p, st')
    | (Res.null, st') => Sum.inl (Res.fatal msgPoolGrowFail, st')
    | (Res.fatal msg, st') => Sum.inl (Res.fatal msg, st')
  else Sum.inr (d, st)

/-- `pool_allocator_proc`, ALLOCATOR_MSG_ALLOC case (src/buddy.c:239-251):
after the growth check, `ptr = pool->mem + pool->size`, advance
`pool->size` by `size + hdr_size`, write the block header at `ptr` and
return `ptr + hdr_size`. -/
def poolAlloc (B size d : Nat) (st : TempState) : Res × TempState :=
  match poolPre B size d st with
  | Sum.inl r => r
  | Sum.inr (p, st1) =>
    let pmem := loadU64 st1.mem (p + 32)
    let psize := loadU64 st1.mem (p + 24)
    let ptr := pmem + psize
    let m1 := storeU64 st1.mem (p + 24) (psize + size + 16)
    let m2 := storeU64 (storeU64 m1 ptr POOL_SIG) (ptr + 8) size
    (Res.ptr (ptr + 16), { st1 with mem := m2 })

/-- `pool_allocator_proc`, ALLOCATOR_MSG_ZERO_ALLOC case: the growth check
runs once for the message, then `alloc(a, size)` re-enters the procedure
(running the growth check again), then the result is zero-filled. -/
def poolZeroAlloc (B size d : Nat) (st : TempState) : Res × TempState :=
  match poolPre B size d st with
  | Sum.inl r => r
  | Sum.inr (_, st1) =>
    match poolAlloc B size d st1 with
    | (Res.ptr q, st2) => (Res.ptr q, { st2 with mem := zeroMemory st2.mem q size })
    | r => r

/-- `pool_allocator_proc`, ALLOCATOR_MSG_REALLOC case (src/buddy.c:263-285):
after the growth check, NULL old pointer or a signature other than
POOL_BLOCK_SIGNATURE returns NULL; the old size is cached, a request
smaller than it panics, otherwise `alloc(a, size)` re-enters the procedure
and the old content is copied. -/
def poolRealloc (B size old d : Nat) (st : TempState) : Res × TempState :=
  match poolPre B size d st with
  | Sum.inl r => r
  | Sum.inr (_, st1) =>
    if old = 0 then (Res.null, st1)
    else if loadU64 st1.mem (old - 16) ≠ POOL_SIG then (Res.null, st1)
    else
      let oldsize := loadU64 st1.mem (old - 8)
      if size < oldsize then (Res.fatal msgPoolShrink, st1)
      else
        match poolAlloc B size d st1 with
        | (Res.ptr q, st2) => (Res.ptr q, { st2 with mem := copyMemory st2.mem q old oldsize })
        | r => r

/-- `get_pool_allocator` (src/buddy.c:295-317) with the temporary allocator
as backing: panic if `init_size < sizeof(_pool)`, allocate the backing
block, and write the `_pool` struct at its start (backing allocator value,
`cap = init_size`, `size = 0`, `mem = block + sizeof(_pool)`).  A NULL
backing allocation panics inside `copy_memory`.  Returns the struct address,
which is the `data` field of the resulting pool Allocator. -/
def getPoolAllocator (B initSize : Nat) (st : TempState) : Res × TempState :=
  if initSize < POOL_HDR then (Res.fatal msgPoolInit, st)
  else
    match tempAlloc B initSize st with
    | (Res.ptr p, st1) =>
      let m := storeU64 (storeU64 (storeU64 (storeU64 (storeU64 st1.mem
        p 0) (p + 8) 1) (p + 16) initSize) (p + 24) 0) (p + 32) (p + POOL_HDR)
      (Res.ptr p, { st1 with mem := m })
    | (Res.null, st1) => (Res.fatal msgCopyDestNull, st1)
    | r => r

/-- An allocator capability as passed to the string builder: the temporary
allocator, or a pool allocator whose `_pool` struct sits at address `d`. -/
inductive Alloc where
  | temp
  | pool (d : Nat)
deriving DecidableEq

/-- `alloc(a, size)` dispatch for the strategies the builder scenarios use. -/
def doAlloc (B : Nat) (a : Alloc) (size : Nat) (st : TempState) : Res × TempState :=
  match a with
  | Alloc.temp => tempAlloc B size st
  | Alloc.pool d => poolAlloc B size d st

/-- `alloc_realloc(a, old, size)` dispatch. -/
def doRealloc (B : Nat) (a : Alloc) (old size : Nat) (st : TempState) : Res × TempState :=
  match a with
  | Alloc.temp => tempRealloc B size old st
  | Alloc.pool d => poolRealloc B size old d st

/-- `StringBuilder` from src/buddy.h / src/buddy.c. -/
structure SB where
  alloc : Alloc
  size : Nat
  length : Nat
  mem : Nat
  err : Bool

/-- `str_builder_new` (src/buddy.c:751-766): allocate
`_STRINGBUILDER_START_SIZE` = 64 bytes; NULL gives ERROR_STRING_BUILDER.
A panic of the backing allocator terminates the process
(`Except.error`). -/
def strBuilderNew (B : Nat) (a : Alloc) (st : TempState) : Except String (SB × TempState) :=
  match doAlloc B a 64 st with
  | (Res.ptr p, st') =>
    Except.ok ({ alloc := a, size := 64, length := 0, mem := p, err := false }, st')
  | (Res.null, st') =>
    Except.ok ({ alloc := a, size := 0, length := 0, mem := 0, err := true }, st')
  | (Res.fatal msg, _) => Except.error msg

/-- The capacity-doubling loop of `str_builder_append_bytes`:
`while (new_size < target) new_size *= 2` in u64 arithmetic.  The C loop
does not terminate when `new_size` reaches 0; the fuel (always ample in the
scenarios considered, which start from 64) only bounds that degenerate
case. -/
def growSize : Nat → Nat → Nat → Nat
  | 0, _, ns => ns
  | f + 1, target, ns => if ns < target then growSize f target ((ns * 2) % W) else ns

/-- `str_builder_append_bytes` (src/buddy.c:792-819): on overflow of the
internal buffer, double the capacity until `sb->size + length` fits,
reallocate through the builder's allocator, then copy the bytes at
`mem + length` and advance `length`. -/
def strBuilderAppendBytes (B : Nat) (sb : SB) (bs : List Nat) (st : TempState) :
    Except String ((Bool × SB) × TempState) :=
  if sb.err then Except.ok ((false, sb), st)
  else if (sb.length + bs.length) % W > sb.size then
    let newSize := growSize 96 ((sb.size + bs.length) % W) ((sb.size * 2) % W)
    match doRealloc B sb.alloc sb.mem newSize st with
    | (Res.ptr p, st') =>
      Except.ok ((true, { sb with mem := p, size := newSize, length := (sb.length + bs.length) % W }),
        { st' with mem := copyList st'.mem (p + sb.length) bs })
    | (Res.null, st') => Except.ok ((false, sb), st')
    | (Res.fatal msg, _) => Except.error msg
  else
    Except.ok ((true, { sb with length := (sb.length + bs.length) % W }),
      { st with mem := copyList st.mem (sb.mem + sb.length) bs })

/-- `String` from src/buddy.h: a pointer, a length, and an error flag (no
ownership of content; `ptr` points into the byte memory). -/
structure CStr where
  ptr : Nat
  length : Nat
  err : Bool
deriving DecidableEq

instance : Inhabited CStr := ⟨⟨0, 0, true⟩⟩

/-- `str_builder_to_string` (src/buddy.c:821-830): append a null terminator
through the normal append path, then return `{ s = mem, length = length - 1 }`
(u64 subtraction) without checking that the append succeeded. -/
def strBuilderToString (B : Nat) (sb : SB) (st : TempState) :
    Except String (CStr × SB × TempState) :=
  match strBuilderAppendBytes B sb [0] st with
  | Except.ok ((_, sb'), st') =>
    Except.ok (⟨sb'.mem, (sb'.length + (W - 1)) % W, false⟩, sb', st')
  | Except.error msg => Except.error msg

/-- `str_view` (src/buddy.c:566-576): error on an error-flagged input,
`start >= length`, `end > length`, or `start > end`; otherwise a non-owning
window `{ s + start, end - start }`. -/
def strView (s : CStr) (start stop : Nat) : CStr :=
  if s.err ∨ start ≥ s.length ∨ stop > s.length ∨ start > stop then ⟨0, 0, true⟩
  else ⟨s.ptr + start, stop - start, false⟩

/-- `str_equal` (src/buddy.c:667-676) reading both strings from the given
byte memory. -/
def strEqual (m : Mem) (a b : CStr) : Bool :=
  if a.err || b.err || a.length != b.length then false
  else decide (∀ i < a.length, mread m (a.ptr + i) = mread m (b.ptr + i))

/-- `str_alloc_cstr` (src/buddy.c:612-630) over the temporary allocator,
with the C string given as its literal bytes: allocate `len + 1`, copy the
bytes, and write the terminating zero into the copy (`mem[len] = 0`). -/
def strAllocCStr (B : Nat) (bs : List Nat) (st : TempState) :
    Except String (CStr × TempState) :=
  match tempAlloc B ((bs.length + 1) % W) st with
  | (Res.ptr p, st1) =>
    let m := store (copyList st1.mem p bs) (p + bs.length) 0
    Except.ok (⟨p, bs.length, false⟩, { st1 with mem := m })
  | (Res.null, st1) => Except.ok (⟨0, 0, true⟩, st1)
  | (Res.fatal msg, _) => Except.error msg

/-- `str_alloc` (src/buddy.c:593-610) over the temporary allocator: error
on an error-flagged input; allocate `s.length + 1`, copy `s.length` bytes
from the source into the copy, then execute `s.s[s.length] = 0` — a store
through the SOURCE pointer, one byte past the source content. -/
def strAlloc (B : Nat) (s : CStr) (st : TempState) :
    Except String (CStr × TempState) :=
  if s.err then Except.ok (⟨0, 0, true⟩, st)
  else
    match tempAlloc B ((s.length + 1) % W) st with
    | (Res.ptr p, st1) =>
      let m := store (copyMemory st1.mem p s.ptr s.length) (s.ptr + s.length) 0
      Except.ok (⟨p, s.length, false⟩, { st1 with mem := m })
    | (Res.null, st1) => Except.ok (⟨0, 0, true⟩, st1)
    | (Res.fatal msg, _) => Except.error msg

/-- Total projections of `strAlloc`, used to state its behavior without
binders: whether it returned a non-error string. -/
def strAllocOk (B : Nat) (s : CStr) (st : TempState) : Bool :=
  match strAlloc B s st with
  | Except.ok (r, _) => !r.err
  | Except.error _ => false

/-- The pointer of the string returned by `strAlloc` (0 on failure). -/
def strAllocPtr (B : Nat) (s : CStr) (st : TempState) : Nat :=
  match strAlloc B s st with
  | Except.ok (r, _) => r.ptr
  | Except.error _ => 0

/-- The final byte memory after `strAlloc` (the input memory on a fatal
outcome). -/
def strAllocMem (B : Nat) (s : CStr) (st : TempState) : Mem :=
  match strAlloc B s st with
  | Except.ok (_, stf) => stf.mem
  | Except.error _ => st.mem

/-- Base address used by all concrete scenarios (8-byte aligned, nonzero so
that no valid pointer is NULL). -/
def B0 : Nat := 1024

/-- Uninitialized junk memory: every byte reads 7, so unwritten locations
are observable. -/
def junk : Mem := ⟨[], fun _ => 7⟩

/-- Fresh temporary-allocator state: head at offset 0. -/
def ST0 : TempState := ⟨B0, junk, 0⟩

/-- A state with the head at offset 100, used by witnesses that need room
below the head for a pre-existing source block. -/
def ST1124 : TempState := ⟨1124, junk, 0⟩

def helloBytes : List Nat := [72, 101, 108, 108, 111, 32]

def worldBytes : List Nat := [119, 111, 114, 108, 100, 33]

def helloWorldBytes : List Nat := helloBytes ++ worldBytes

def digitBytes : List Nat := [49, 50, 51, 52, 53, 54, 55, 56, 57]

def bytes456 : List Nat := [52, 53, 54]

def bytesA : List Nat := List.replicate 40 65

def bytesB : List Nat := List.replicate 40 66

/-- C2 scenario: a pool of init_size 64 over the temporary allocator, a
string builder backed by that pool, appends of 40 and 40 bytes (the second
crossing the 64-byte capacity), then finalization.  Returns the ghost
growth-reallocation counts after builder creation and at the end, together
with the finalized string and state. -/
def c2run : Except String (Nat × Nat × CStr × TempState) :=
  match getPoolAllocator B0 64 ST0 with
  | (Res.ptr d, st1) => do
    let (sb1, st2) ← strBuilderNew B0 (Alloc.pool d) st1
    let g1 := st2.growths
    let ((_, sb2), st3) ← strBuilderAppendBytes B0 sb1 bytesA st2
    let ((_, sb3), st4) ← strBuilderAppendBytes B0 sb2 bytesB st3
    let (s, _, st5) ← strBuilderToString B0 sb3 st4
    pure (g1, st5.growths, s, st5)
  | _ => Except.error msgScenario

/-- The two growth counts of the C2 scenario. -/
def c2counts : Nat × Nat :=
  match c2run with
  | Except.ok (g1, g2, _, _) => (g1, g2)
  | Except.error _ => (99, 99)

/-- C3 counterexample run: allocate a 2-byte string "ab" (a 3-byte block
holding 97, 98, 0), then reallocate it to new size 1 through the temporary
allocator.  Returns (old pointer, new pointer, final state). -/
def c3run : Except String (Nat × Nat × TempState) := do
  let (s, st1) ← strAllocCStr B0 [97, 98] ST0
  match tempRealloc B0 1 s.ptr st1 with
  | (Res.ptr p2, st2) => pure (s.ptr, p2, st2)
  | _ => Except.error msgScenario

def c3out : Nat × Nat × TempState :=
  (c3run.toOption).getD (0, 0, ST0)

/-- A handwritten state for the C3 amended-claim witness: a valid temporary
block header (signature and size 2) for a block at address 1100, head at
1124. -/
def c3wmem : Mem := storeU64 (storeU64 junk 1084 TEMP_SIG) 1092 2

def c3wst : TempState := ⟨1124, c3wmem, 0⟩

/-- C6 witness setup: pool of init_size 64 over the temporary allocator,
one 8-byte pool allocation.  Returns (pool struct address, block pointer,
state). -/
def c6setup : Except String (Nat × Nat × TempState) :=
  match getPoolAllocator B0 64 ST0 with
  | (Res.ptr d, st1) =>
    match poolAlloc B0 8 d st1 with
    | (Res.ptr q, st2) => Except.ok (d, q, st2)
    | _ => Except.error msgScenario
  | _ => Except.error msgScenario

def c6out : Nat × Nat × TempState :=
  (c6setup.toOption).getD (0, 0, ST0)

def c6d : Nat := c6out.1

def c6q : Nat := c6out.2.1

def c6st : TempState := c6out.2.2

/-- C7 scenario: allocate "123456789", view [3, 6), allocate "456", and
compare the view with it byte-for-byte in the final memory. -/
def c7run : Except String ((CStr × Bool) × TempState) := do
  let (s, st1) ← strAllocCStr B0 digitBytes ST0
  let v := strView s 3 6
  let (r456, st2) ← strAllocCStr B0 bytes456 st1
  pure ((v, strEqual st2.mem v r456), st2)

/-- The C7 scenario checks: the view is non-error, has length 3, and equals
"456". -/
def c7ok : Bool :=
  match c7run with
  | Except.ok ((v, eq456), _) => !v.err && (v.length == 3) && eq456
  | Except.error _ => false

/-- C9 scenario: builder over the temporary allocator, appends "Hello "
then "world!", finalization, and a direct `str_alloc_cstr` copy of
"Hello world!" in the same memory. -/
def c9run : Except String (CStr × CStr × TempState) := do
  let (sb1, st1) ← strBuilderNew B0 Alloc.temp ST0
  let ((_, sb2), st2) ← strBuilderAppendBytes B0 sb1 helloBytes st1
  let ((_, sb3), st3) ← strBuilderAppendBytes B0 sb2 worldBytes st2
  let (s, _, st4) ← strBuilderToString B0 sb3 st3
  let (t, st5) ← strAllocCStr B0 helloWorldBytes st4
  pure (s, t, st5)

/-- The C9 scenario checks: the finalized string equals the direct copy
byte-for-byte and both have length 12. -/
def c9ok : Bool :=
  match c9run with
  | Except.ok (s, t, st) => strEqual st.mem s t && (s.length == 12) && (t.length == 12)
  | Except.error _ => false

/-- Every byte of the memory is a byte value (invariant of all memories the
C program can produce, since every store is a u8 store). -/
def Bytes8 (m : Mem) : Prop := ∀ x, mread m x < 256

theorem mread_store_self (m : Mem) (a v : Nat) : mread (store m a v) a = v % 256 := by
  simp [mread, store, lookupW]

theorem mread_store_out (m : Mem) (a v x : Nat) (h : x ≠ a) :
    mread (store m a v) x = mread m x := by
  simp [mread, store, lookupW, h]

theorem mread_storeU64_out (m : Mem) (a v x : Nat) (h : x < a ∨ a + 8 ≤ x) :
    mread (storeU64 m a v) x = mread m x := by
  unfold storeU64
  rw [mread_store_out _ _ _ _ (by omega), mread_store_out _ _ _ _ (by omega),
    mread_store_out _ _ _ _ (by omega), mread_store_out _ _ _ _ (by omega),
    mread_store_out _ _ _ _ (by omega), mread_store_out _ _ _ _ (by omega),
    mread_store_out _ _ _ _ (by omega), mread_store_out _ _ _ _ (by omega)]

theorem loadU64_congr (m1 m2 : Mem) (a : Nat)
    (h : ∀ i, i < 8 → mread m1 (a + i) = mread m2 (a + i)) :
    loadU64 m1 a = loadU64 m2 a := by
  have h0 := h 0 (by omega)
  have h1 := h 1 (by omega)
  have h2 := h 2 (by omega)
  have h3 := h 3 (by omega)
  have h4 := h 4 (by omega)
  have h5 := h 5 (by omega)
  have h6 := h 6 (by omega)
  have h7 := h 7 (by omega)
  simp only [Nat.add_zero] at h0
  unfold loadU64
  rw [h0, h1, h2, h3, h4, h5, h6, h7]

theorem mread_storeU64_byte (m : Mem) (a v : Nat) :
    mread (storeU64 m a v) a = v % 256 ∧
    mread (storeU64 m a v) (a + 1) = v / 256 % 256 ∧
    mread (storeU64 m a v) (a + 2) = v / 256 ^ 2 % 256 ∧
    mread (storeU64 m a v) (a + 3) = v / 256 ^ 3 % 256 ∧
    mread (storeU64 m a v) (a + 4) = v / 256 ^ 4 % 256 ∧
    mread (storeU64 m a v) (a + 5) = v / 256 ^ 5 % 256 ∧
    mread (storeU64 m a v) (a + 6) = v / 256 ^ 6 % 256 ∧
    mread (storeU64 m a v) (a + 7) = v / 256 ^ 7 % 256 := by
  unfold storeU64
  refine ⟨?_, ?_, ?_, ?_, ?_, ?_, ?_, ?_⟩
  · rw [mread_store_out _ _ _ _ (by omega), mread_store_out _ _ _ _ (by omega),
      mread_store_out _ _ _ _ (by omega), mread_store_out _ _ _ _ (by omega),
      mread_store_out _ _ _ _ (by omega), mread_store_out _ _ _ _ (by omega),
      mread_store_out _ _ _ _ (by omega), mread_store_self]
  · rw [mread_store_out _ _ _ _ (by omega), mread_store_out _ _ _ _ (by omega),
      mread_store_out _ _ _ _ (by omega), mread_store_out _ _ _ _ (by omega),
      mread_store_out _ _ _ _ (by omega), mread_store_out _ _ _ _ (by omega),
      mread_store_self]
  · rw [mread_store_out _ _ _ _ (by omega), mread_store_out _ _ _ _ (by omega),
      mread_store_out _ _ _ _ (by omega), mread_store_out _ _ _ _ (by omega),
      mread_store_out _ _ _ _ (by omega), mread_store_self]
  · rw [mread_store_out _ _ _ _ (by omega), mread_store_out _ _ _ _ (by omega),
      mread_store_out _ _ _ _ (by omega), mread_store_out _ _ _ _ (by omega),
      mread_store_self]
  · rw [mread_store_out _ _ _ _ (by omega), mread_store_out _ _ _ _ (by omega),
      mread_store_out _ _ _ _ (by omega), mread_store_self]
  · rw [mread_store_out _ _ _ _ (by omega), mread_store_out _ _ _ _ (by omega),
      mread_store_self]
  · rw [mread_store_out _ _ _ _ (by omega), mread_store_self]
  · rw [mread_store_self]

theorem loadU64_storeU64_self (m : Mem) (a v : Nat) :
    loadU64 (storeU64 m a v) a = v % W := by
  obtain ⟨e0, e1, e2, e3, e4, e5, e6, e7⟩ := mread_storeU64_byte m a v
  unfold loadU64 W
  rw [e0, e1, e2, e3, e4, e5, e6, e7]
  norm_num
  omega

theorem copyMemory_out (m : Mem) (d s x : Nat) (n : Nat) (h : x < d ∨ d + n ≤ x) :
    mread (copyMemory m d s n) x = mread m x := by
  induction n with
  | zero => rfl
  | succ k ih =>
    unfold copyMemory copyStep
    rw [mread_store_out _ _ _ _ (by omega)]
    exact ih (by omega)

theorem bytes8_store (m : Mem) (a v : Nat) (h : Bytes8 m) : Bytes8 (store m a v) := by
  intro x
  by_cases hx : x = a
  · subst hx
    rw [mread_store_self]
    exact Nat.mod_lt _ (by omega)
  · rw [mread_store_out _ _ _ _ hx]
    exact h x

theorem bytes8_storeU64 (m : Mem) (a v : Nat) (h : Bytes8 m) : Bytes8 (storeU64 m a v) := by
  unfold storeU64
  exact bytes8_store _ _ _ (bytes8_store _ _ _ (bytes8_store _ _ _ (bytes8_store _ _ _
    (bytes8_store _ _ _ (bytes8_store _ _ _ (bytes8_store _ _ _ (bytes8_store _ _ _ h)))))))

theorem copyMemory_read (m : Mem) (d s n : Nat) (hds : s + n ≤ d) (hb : Bytes8 m) :
    ∀ i, i < n → mread (copyMemory m d s n) (d + i) = mread m (s + i) := by
  induction n with
  | zero => intro i hi; omega
  | succ k ih =>
    intro i hi
    unfold copyMemory copyStep
    by_cases hik : i = k
    · subst hik
      rw [mread_store_self, copyMemory_out _ _ _ _ _ (by omega)]
      exact Nat.mod_eq_of_lt (hb (s + i))
    · rw [mread_store_out _ _ _ _ (by omega)]
      exact ih (by omega) i (by omega)

theorem alignTo8_gt (n : Nat) : n < alignTo8 n := by
  unfold alignTo8
  omega

theorem alignTo8_le (n : Nat) : alignTo8 n ≤ n + 8 := by
  unfold alignTo8
  omega

theorem tempAlloc_success (B size : Nat) (st : TempState)
    (hok : (st.head - B + (size + 16) % W) % W ≤ CAP) :
    tempAlloc B size st =
      (Res.ptr (alignTo8 st.head + 16),
       { head := alignTo8 st.head + (size + 16) % W,
         mem := storeU64 (storeU64 st.mem (alignTo8 st.head) TEMP_SIG) (alignTo8 st.head + 8) size,
         growths := st.growths }) := by
  simp only [tempAlloc]
  split
  · rename_i hgt
    exact absurd hgt (by omega)
  · rfl

theorem tempAlloc_fatal (B size : Nat) (st : TempState)
    (hgt : (st.head - B + (size + 16) % W) % W > CAP) :
    tempAlloc B size st = (Res.fatal msgTempFull, st) := by
  simp only [tempAlloc]
  split
  · rfl
  · rename_i hle
    exact absurd hgt hle

theorem tempRealloc_success (B size old : Nat) (st : TempState)
    (h0 : old ≠ 0) (hsig : loadU64 st.mem (old - 16) = TEMP_SIG)
    (hok : (st.head - B + (size + 16) % W) % W ≤ CAP) :
    tempRealloc B size old st =
      (Res.ptr (alignTo8 st.head + 16),
       { head := alignTo8 st.head + (size + 16) % W,
         mem :=
           copyMemory
             (storeU64 (storeU64 st.mem (alignTo8 st.head) TEMP_SIG) (alignTo8 st.head + 8) size)
             (alignTo8 st.head + 16) old
             (loadU64 (storeU64 (storeU64 st.mem (alignTo8 st.head) TEMP_SIG)
               (alignTo8 st.head + 8) size) (old - 8)),
         growths := st.growths }) := by
  unfold tempRealloc
  rw [if_neg h0, hsig, if_neg (by simp), tempAlloc_success B size st hok]

theorem tempRealloc_success_frame (B size old : Nat) (st : TempState)
    (h0 : old ≠ 0) (hsig : loadU64 st.mem (old - 16) = TEMP_SIG)
    (hok : (st.head - B + (size + 16) % W) % W ≤ CAP) :
    (tempRealloc B size old st).1 = Res.ptr (alignTo8 st.head + 16) ∧
    ∀ x, x < st.head → mread ((tempRealloc B size old st).2).mem x = mread st.mem x := by
  rw [tempRealloc_success B size old st h0 hsig hok]
  refine ⟨rfl, fun x hx => ?_⟩
  have hxa : x < alignTo8 st.head := lt_trans hx (alignTo8_gt st.head)
  rw [copyMemory_out _ _ _ _ _ (Or.inl (by omega)),
    mread_storeU64_out _ _ _ _ (Or.inl (by omega)),
    mread_storeU64_out _ _ _ _ (Or.inl (by omega))]

/-- C1: on an allocation request that exceeds the remaining capacity, the
temporary allocator does NOT fail cleanly with a NULL return: it panics
(src/buddy.c:135), which prints and terminates the process.  The theorem
evaluates the embedded `temporary_allocator_proc` at the failing input — a
fresh temporary allocator and a request of TEMP_ALLOC_BUFSIZE bytes — and
shows the outcome is the fatal panic (the state is returned unchanged only
because the process is already dead at that point).  This contradicts the
claim and the allocator's own documentation ("Returns NULL if the
allocation fails"); the arena path (`arena_alloc`) does return NULL
cleanly. -/
theorem c1_temp_exhaustion_fatal :
    tempAlloc B0 CAP ST0 = (Res.fatal msgTempFull, ST0) := rfl

set_option maxRecDepth 40000 in
/-- C2: in the concrete scenario of the claim — a pool initialized at 64
bytes over the temporary allocator, a string builder backed by it, and
sequential appends (40 then 40 bytes) crossing 64 bytes total — the growth
reallocation count is 1 right after builder creation and 3 at the end: the
single append that crossed the capacity triggered TWO growth reallocations
(one for the REALLOC message, one for the nested ALLOC), not exactly one,
because `pool_allocator_proc` never updates the stored `cap` nor `a.data`
after growing. -/
theorem c2_pool_growth_count : c2counts = (1, 3) ∧ c2counts.2 - c2counts.1 = 2 := by
  constructor
  · rfl
  · rfl

/-- C3 counterexample: reallocating a block of recorded size 2 (the
string "ab" plus its terminator makes a 3-byte block; here the header
records size 3) down to new size 1 writes 3 bytes into the new block: the
new block's header records size 1, yet the bytes at offsets 1 and 2 past
the returned pointer — beyond the requested new size — were overwritten
with the old content (98 and 0), where the untouched memory read 7.  So
"no more than new_size bytes are written into the new block" is false. -/
theorem c3_shrink_copies_old_size :
    c3out.2.1 = 1072 ∧
    loadU64 c3out.2.2.mem (c3out.2.1 - 8) = 1 ∧
    mread c3out.2.2.mem (c3out.2.1 + 1) = 98 ∧
    mread c3out.2.2.mem (c3out.2.1 + 2) = 0 ∧
    mread ST0.mem (c3out.2.1 + 1) = 7 ∧
    mread ST0.mem (c3out.2.1 + 2) = 7 := by
  refine ⟨rfl, rfl, rfl, rfl, rfl, rfl⟩

/-- C4 counterexample: the invariant `0 ≤ head ≤ C` does not survive every
operation.  `temp_restore_mark(C + 1)` sets the head offset to `C + 1 > C`
with no bounds check; and a successful allocation of `C - 16` bytes from a
fresh allocator passes the capacity check (which ignores alignment
padding) yet leaves the head at offset `C + 8 > C`. -/
theorem c4_invariant_violations :
    (tempRestoreMark B0 (CAP + 1) ST0).head - B0 = CAP + 1 ∧
    CAP < (tempRestoreMark B0 (CAP + 1) ST0).head - B0 ∧
    (tempAlloc B0 (CAP - 16) ST0).1 = Res.ptr 1048 ∧
    (tempAlloc B0 (CAP - 16) ST0).2.head - B0 = CAP + 8 ∧
    CAP < (tempAlloc B0 (CAP - 16) ST0).2.head - B0 := by
  refine ⟨rfl, by decide, rfl, rfl, by decide⟩

/-- C7: `str_view(s, 3, 6)` on the allocated string "123456789" returns a
non-error view of length 3 equal byte-for-byte to "456" (checked by
`c7ok`); and for every string and indices, `start > end` or
`end > s.length` yields an error-flagged result. -/
theorem c7_str_view :
    c7ok = true ∧
    ∀ (s : CStr) (a b : Nat), a > b ∨ b > s.length → (strView s a b).err = true := by
  constructor
  · rfl
  · intro s a b h
    unfold strView
    rw [if_pos]
    rcases h with h | h
    · exact Or.inr (Or.inr (Or.inr h))
    · exact Or.inr (Or.inr (Or.inl h))

/-- C7 witness: the concrete scenario check, plus the error result of an
out-of-range view (start 4 > end 2 on a length-5 string). -/
theorem c7_str_view_witness :
    c7ok = true ∧ (strView ⟨0, 5, false⟩ 4 2).err = true :=
  ⟨c7_str_view.1, c7_str_view.2 ⟨0, 5, false⟩ 4 2 (Or.inl (by decide))⟩

/-- C8: `temp_mark()` immediately followed by `temp_restore_mark(mark)`
with no intervening allocation is a no-op — the allocator state is
restored exactly — and hence a subsequent allocation of any size produces
the identical result (same offset, same state) as without the
mark/restore pair. -/
theorem c8_mark_restore_noop (B : Nat) (st : TempState) (h : B ≤ st.head) :
    tempRestoreMark B (tempMark B st) st = st ∧
    ∀ n, tempAlloc B n (tempRestoreMark B (tempMark B st) st) = tempAlloc B n st := by
  have he : tempRestoreMark B (tempMark B st) st = st := by
    cases st with
    | mk hd m g =>
      simp only [tempRestoreMark, tempMark]
      congr 1
      simp only at h
      omega
  exact ⟨he, fun n => by rw [he]⟩

/-- C8 witness: the no-op equation at the fresh concrete state. -/
theorem c8_mark_restore_noop_witness :
    tempRestoreMark B0 (tempMark B0 ST0) ST0 = ST0 :=
  (c8_mark_restore_noop B0 ST0 (by decide)).1

set_option maxRecDepth 40000 in
/-- C9: a fresh builder over the temporary allocator receiving "Hello "
then "world!" finalizes to a string that is byte-for-byte equal, with
length 12, to a direct allocated copy of "Hello world!" (`c9ok` checks
equality and both lengths in the final memory). -/
theorem c9_builder_roundtrip : c9ok = true := rfl

theorem cap_lt_w : 8 * CAP + 64 < W := by decide

theorem tempAlloc_head_bound (B size : Nat) (st : TempState) (p : Nat) (st' : TempState)
    (hB : B ≤ st.head) (hcap : st.head - B ≤ CAP) (hW : size + 16 + CAP < W)
    (heq : tempAlloc B size st = (Res.ptr p, st')) : st'.head - B ≤ CAP + 8 := by
  have hmod : (size + 16) % W = size + 16 := Nat.mod_eq_of_lt (by omega)
  have hmod2 : (st.head - B + (size + 16)) % W = st.head - B + (size + 16) :=
    Nat.mod_eq_of_lt (by omega)
  simp only [tempAlloc, hmod, hmod2] at heq
  split at heq
  · simp at heq
  · rename_i hle
    simp only [Prod.mk.injEq] at heq
    obtain ⟨-, h2⟩ := heq
    subst h2
    have ha := alignTo8_le st.head
    simp only
    omega

theorem tempZeroAlloc_head_bound (B size : Nat) (st : TempState) (p : Nat) (st' : TempState)
    (hB : B ≤ st.head) (hcap : st.head - B ≤ CAP) (hW : size + 16 + CAP < W)
    (heq : tempZeroAlloc B size st = (Res.ptr p, st')) : st'.head - B ≤ CAP + 8 := by
  unfold tempZeroAlloc at heq
  rcases hta : tempAlloc B size st with ⟨r, st1⟩
  rw [hta] at heq
  cases r with
  | ptr q =>
    simp only [Prod.mk.injEq] at heq
    obtain ⟨-, h2⟩ := heq
    subst h2
    exact tempAlloc_head_bound B size st q st1 hB hcap hW hta
  | null => simp at heq
  | fatal msg => simp at heq

theorem tempRealloc_head_bound (B size old : Nat) (st : TempState) (p : Nat) (st' : TempState)
    (hB : B ≤ st.head) (hcap : st.head - B ≤ CAP) (hW : size + 16 + CAP < W)
    (heq : tempRealloc B size old st = (Res.ptr p, st')) : st'.head - B ≤ CAP + 8 := by
  unfold tempRealloc at heq
  split at heq
  · simp at heq
  · split at heq
    · simp at heq
    · rcases hta : tempAlloc B size st with ⟨r, st1⟩
      rw [hta] at heq
      cases r with
      | ptr q =>
        simp only [Prod.mk.injEq] at heq
        obtain ⟨-, h2⟩ := heq
        subst h2
        exact tempAlloc_head_bound B size st q st1 hB hcap hW hta
      | null => simp at heq
      | fatal msg => simp at heq

/-- C4 amended: `0 ≤ head ≤ C` is preserved by `reset_temp_memory`,
`temp_mark`, and `temp_restore_mark(id)` with `id ≤ C`; but
`temp_restore_mark` performs no bounds check (it sets the head offset to
exactly `id`, also when `id > C`), and a successful
allocate/zero-allocate/reallocate from a state satisfying the invariant
only guarantees `head ≤ C + 8`, because the capacity check ignores the 1-8
bytes of alignment padding inserted before the block. -/
theorem c4_head_bounds :
    (∀ B (st : TempState), (resetTempMemory B st).head - B = 0) ∧
    (∀ B id (st : TempState), (tempRestoreMark B id st).head = B + id) ∧
    (∀ B id (st : TempState), id ≤ CAP → (tempRestoreMark B id st).head - B ≤ CAP) ∧
    (∀ B size (st : TempState) p st', B ≤ st.head → st.head - B ≤ CAP →
      size + 16 + CAP < W →
      tempAlloc B size st = (Res.ptr p, st') → st'.head - B ≤ CAP + 8) ∧
    (∀ B size (st : TempState) p st', B ≤ st.head → st.head - B ≤ CAP →
      size + 16 + CAP < W →
      tempZeroAlloc B size st = (Res.ptr p, st') → st'.head - B ≤ CAP + 8) ∧
    (∀ B size old (st : TempState) p st', B ≤ st.head → st.head - B ≤ CAP →
      size + 16 + CAP < W →
      tempRealloc B size old st = (Res.ptr p, st') → st'.head - B ≤ CAP + 8) := by
  refine ⟨fun B st => ?_, fun B id st => rfl, fun B id st h => ?_,
    tempAlloc_head_bound, tempZeroAlloc_head_bound, tempRealloc_head_bound⟩
  · simp [resetTempMemory]
  · simp only [tempRestoreMark]
    omega

/-- C4 amended witness: a concrete successful allocation stays within
`C + 8`. -/
theorem c4_head_bounds_witness : ((tempAlloc B0 8 ST0).2).head - B0 ≤ CAP + 8 :=
  c4_head_bounds.2.2.2.1 B0 8 ST0 1048 ((tempAlloc B0 8 ST0).2)
    (by decide) (by decide) (by decide) rfl

theorem arenaProcAlloc_success (size : Nat) (a : ArenaState)
    (hok : (a.pos + (size + 16) % W) % W ≤ a.asize) :
    arenaProcAlloc size a =
      (Res.ptr (a.base + a.pos + 16),
       { asize := a.asize, pos := (a.pos + (size + 16) % W) % W, base := a.base,
         mem := storeU64 (storeU64 a.mem (a.base + a.pos + 8) size) (a.base + a.pos) ARENA_SIG }) := by
  unfold arenaProcAlloc arenaAlloc
  rw [if_neg (by omega)]

theorem arenaRealloc_success (size old : Nat) (a : ArenaState)
    (h0 : old ≠ 0) (hsig : loadU64 a.mem (old - 16) = ARENA_SIG)
    (hok : (a.pos + (size + 16) % W) % W ≤ a.asize) :
    arenaRealloc size old a =
      (Res.ptr (a.base + a.pos + 16),
       { asize := a.asize, pos := (a.pos + (size + 16) % W) % W, base := a.base,
         mem :=
           copyMemory
             (storeU64 (storeU64 a.mem (a.base + a.pos + 8) size) (a.base + a.pos) ARENA_SIG)
             (a.base + a.pos + 16) old
             (loadU64 (storeU64 (storeU64 a.mem (a.base + a.pos + 8) size)
               (a.base + a.pos) ARENA_SIG) (old - 8)) }) := by
  unfold arenaRealloc
  rw [if_neg h0, hsig, if_neg (by simp), arenaProcAlloc_success size a hok]

/-- C10: `str_alloc(a, s)` on a non-error string over the temporary
allocator allocates `s.length + 1` bytes (the new block's header records
`len + 1`) and copies `s.length` bytes of content into the copy, but the
terminating zero is written to `s.s[s.length]` — one byte past the end of
the SOURCE content — while the copy's final allocated byte (at offset
`len` of the returned block) keeps whatever value the memory held before
the call. -/
theorem c10_str_alloc_terminator (B sp len : Nat) (st : TempState)
    (hb : Bytes8 st.mem)
    (hsrc : sp + len + 1 ≤ st.head)
    (hok : st.head - B + len + 17 ≤ CAP) :
    strAllocOk B ⟨sp, len, false⟩ st = true ∧
    strAllocPtr B ⟨sp, len, false⟩ st = alignTo8 st.head + 16 ∧
    loadU64 (strAllocMem B ⟨sp, len, false⟩ st) (alignTo8 st.head + 8) = len + 1 ∧
    (∀ i, i < len →
      mread (strAllocMem B ⟨sp, len, false⟩ st) (alignTo8 st.head + 16 + i) =
        mread st.mem (sp + i)) ∧
    mread (strAllocMem B ⟨sp, len, false⟩ st) (sp + len) = 0 ∧
    mread (strAllocMem B ⟨sp, len, false⟩ st) (alignTo8 st.head + 16 + len) =
      mread st.mem (alignTo8 st.head + 16 + len) := by
  have hw := cap_lt_w
  have hmod1 : (len + 1) % W = len + 1 := Nat.mod_eq_of_lt (by omega)
  have hok' : (st.head - B + ((len + 1) % W + 16) % W) % W ≤ CAP := by
    rw [hmod1, Nat.mod_eq_of_lt (by omega : len + 1 + 16 < W),
      Nat.mod_eq_of_lt (by omega : st.head - B + (len + 1 + 16) < W)]
    omega
  have hha : st.head < alignTo8 st.head := alignTo8_gt st.head
  have heq : strAlloc B ⟨sp, len, false⟩ st =
      Except.ok (⟨alignTo8 st.head + 16, len, false⟩,
        ⟨alignTo8 st.head + ((len + 1) % W + 16) % W,
         store (copyMemory
             (storeU64 (storeU64 st.mem (alignTo8 st.head) TEMP_SIG)
               (alignTo8 st.head + 8) ((len + 1) % W))
             (alignTo8 st.head + 16) sp len)
           (sp + len) 0,
         st.growths⟩) := by
    unfold strAlloc
    rw [tempAlloc_success B ((len + 1) % W) st hok']
    rfl
  have hM : strAllocMem B ⟨sp, len, false⟩ st =
      store (copyMemory
          (storeU64 (storeU64 st.mem (alignTo8 st.head) TEMP_SIG)
            (alignTo8 st.head + 8) ((len + 1) % W))
          (alignTo8 st.head + 16) sp len)
        (sp + len) 0 := by
    unfold strAllocMem
    rw [heq]
  have hb1 : Bytes8 (storeU64 (storeU64 st.mem (alignTo8 st.head) TEMP_SIG)
      (alignTo8 st.head + 8) ((len + 1) % W)) :=
    bytes8_storeU64 _ _ _ (bytes8_storeU64 _ _ _ hb)
  refine ⟨?_, ?_, ?_, ?_, ?_, ?_⟩
  · unfold strAllocOk
    rw [heq]
    rfl
  · unfold strAllocPtr
    rw [heq]
  · rw [hM]
    have hcongr : loadU64 (store (copyMemory
        (storeU64 (storeU64 st.mem (alignTo8 st.head) TEMP_SIG)
          (alignTo8 st.head + 8) ((len + 1) % W))
        (alignTo8 st.head + 16) sp len)
        (sp + len) 0) (alignTo8 st.head + 8) =
        loadU64 (storeU64 (storeU64 st.mem (alignTo8 st.head) TEMP_SIG)
          (alignTo8 st.head + 8) ((len + 1) % W)) (alignTo8 st.head + 8) := by
      apply loadU64_congr
      intro i hi
      rw [mread_store_out _ _ _ _ (by omega),
        copyMemory_out _ _ _ _ _ (Or.inl (by omega))]
    rw [hcongr, loadU64_storeU64_self, hmod1, hmod1]
  · intro i hi
    rw [hM, mread_store_out _ _ _ _ (by omega),
      copyMemory_read _ _ _ _ (by omega) hb1 i hi,
      mread_storeU64_out _ _ _ _ (Or.inl (by omega)),
      mread_storeU64_out _ _ _ _ (Or.inl (by omega))]
  · rw [hM, mread_store_self]
  · rw [hM, mread_store_out _ _ _ _ (by omega),
      copyMemory_out _ _ _ _ _ (Or.inr (by omega)),
      mread_storeU64_out _ _ _ _ (Or.inr (by omega)),
      mread_storeU64_out _ _ _ _ (Or.inr (by omega))]

/-- C10 witness: at a concrete state with a 3-byte source below the head,
`str_alloc` leaves the copy's final byte unwritten while zeroing the byte
after the source. -/
theorem c10_str_alloc_terminator_witness :
    mread (strAllocMem 1024 ⟨1050, 3, false⟩ ST1124) (1050 + 3) = 0 ∧
    mread (strAllocMem 1024 ⟨1050, 3, false⟩ ST1124) (alignTo8 ST1124.head + 16 + 3) =
      mread ST1124.mem (alignTo8 ST1124.head + 16 + 3) := by
  have hbj : Bytes8 ST1124.mem := by
    intro x
    simp only [ST1124, junk, mread, lookupW]
    omega
  have h := c10_str_alloc_terminator 1024 1050 3 ST1124 hbj (by decide) (by decide)
  exact ⟨h.2.2.2.2.1, h.2.2.2.2.2⟩

theorem poolPre_nogrowth (B size d : Nat) (st : TempState)
    (hng : (loadU64 st.mem (d + 24) + size + 16) % W ≤ loadU64 st.mem (d + 16)) :
    poolPre B size d st = Sum.inr (d, st) := by
  simp only [poolPre]
  rw [if_neg (by omega)]

theorem poolPre_growth (B size d : Nat) (st : TempState)
    (hg : (loadU64 st.mem (d + 24) + size + 16) % W > loadU64 st.mem (d + 16))
    (hd0 : d ≠ 0) (hdsig : loadU64 st.mem (d - 16) = TEMP_SIG)
    (hok : (st.head - B + ((loadU64 st.mem (d + 16) * 2) % W + 16) % W) % W ≤ CAP) :
    ∃ st1 : TempState, poolPre B size d st = Sum.inr (alignTo8 st.head + 16, st1) ∧
      st.head < st1.head ∧
      ∀ x, x < st.head → mread st1.mem x = mread st.mem x := by
  simp only [poolPre]
  rw [if_pos hg]
  rw [tempRealloc_success B ((loadU64 st.mem (d + 16) * 2) % W) d
    { st with growths := st.growths + 1 } hd0 hdsig hok]
  refine ⟨_, rfl, ?_, ?_⟩
  · have := alignTo8_gt st.head
    simp only
    omega
  · intro x hx
    have hxa : x < alignTo8 st.head := lt_trans hx (alignTo8_gt st.head)
    simp only
    rw [copyMemory_out _ _ _ _ _ (Or.inl (by omega)),
      mread_storeU64_out _ _ _ _ (Or.inl (by omega)),
      mread_storeU64_out _ _ _ _ (Or.inl (by omega))]

/-- C5: a Reallocate request whose block-header signature does not match
the strategy being invoked fails with a NULL return and never acts on the
foreign memory: for the temporary allocator and the arena the state is
returned untouched; for the pool, both without growth room pressure and
when the growth branch fires first (reallocating the pool's own backing
region, not the foreign block), the result is NULL. -/
theorem c5_foreign_signature_realloc_fails :
    (∀ B size old (st : TempState), old ≠ 0 → loadU64 st.mem (old - 16) ≠ TEMP_SIG →
      tempRealloc B size old st = (Res.null, st)) ∧
    (∀ size old (a : ArenaState), old ≠ 0 → loadU64 a.mem (old - 16) ≠ ARENA_SIG →
      arenaRealloc size old a = (Res.null, a)) ∧
    (∀ B size old d (st : TempState), old ≠ 0 →
      (loadU64 st.mem (d + 24) + size + 16) % W ≤ loadU64 st.mem (d + 16) →
      loadU64 st.mem (old - 16) ≠ POOL_SIG →
      poolRealloc B size old d st = (Res.null, st)) ∧
    (∀ B size old d (st : TempState), old ≠ 0 → 16 ≤ old → old ≤ st.head → 16 ≤ d →
      loadU64 st.mem (d - 16) = TEMP_SIG →
      (loadU64 st.mem (d + 24) + size + 16) % W > loadU64 st.mem (d + 16) →
      (st.head - B + ((loadU64 st.mem (d + 16) * 2) % W + 16) % W) % W ≤ CAP →
      loadU64 st.mem (old - 16) ≠ POOL_SIG →
      (poolRealloc B size old d st).1 = Res.null) := by
  refine ⟨?_, ?_, ?_, ?_⟩
  · intro B size old st h0 hsig
    unfold tempRealloc
    rw [if_neg h0, if_pos hsig]
  · intro size old a h0 hsig
    unfold arenaRealloc
    rw [if_neg h0, if_pos hsig]
  · intro B size old d st h0 hng hsig
    unfold poolRealloc
    rw [poolPre_nogrowth B size d st hng]
    simp only
    rw [if_neg h0, if_pos hsig]
  · intro B size old d st h0 h16 hoh hd16 hdsig hg hok hsig
    obtain ⟨st1, hpre, hh, hfr⟩ := poolPre_growth B size d st hg (by omega) hdsig hok
    have hsig1 : loadU64 st1.mem (old - 16) = loadU64 st.mem (old - 16) :=
      loadU64_congr _ _ _ (fun i hi => hfr _ (by omega))
    unfold poolRealloc
    rw [hpre]
    simp only
    rw [if_neg h0, if_pos (by rw [hsig1]; exact hsig)]

/-- C5 witness: a reallocation through the temporary allocator of a
pointer into junk memory (whose header bytes do not spell
TEMP_BLOCK_SIGNATURE) returns NULL and leaves the state unchanged. -/
theorem c5_foreign_signature_realloc_fails_witness :
    tempRealloc B0 5 100 ST0 = (Res.null, ST0) :=
  c5_foreign_signature_realloc_fails.1 B0 5 100 ST0 (by decide) (by decide)

/-- C6: a pool Reallocate of a pool-issued block (valid POOL signature)
requesting a size strictly smaller than the recorded size panics with
"pool: cannot realloc to smaller size", and no byte below the backing
allocator's head — in particular neither the pool's bookkeeping struct nor
any allocated content — has been mutated when the panic fires (the growth
branch, when it triggers first, only writes at and above the old head). -/
theorem c6_pool_shrink_panics (B d old size : Nat) (st : TempState)
    (hd16 : 16 ≤ d) (hdsig : loadU64 st.mem (d - 16) = TEMP_SIG)
    (hold0 : old ≠ 0) (hold16 : 16 ≤ old) (holdh : old ≤ st.head)
    (hpsig : loadU64 st.mem (old - 16) = POOL_SIG)
    (hshrink : size < loadU64 st.mem (old - 8))
    (hok : (st.head - B + ((loadU64 st.mem (d + 16) * 2) % W + 16) % W) % W ≤ CAP) :
    (poolRealloc B size old d st).1 = Res.fatal msgPoolShrink ∧
    ∀ x, x < st.head → mread ((poolRealloc B size old d st).2).mem x = mread st.mem x := by
  by_cases hg : (loadU64 st.mem (d + 24) + size + 16) % W > loadU64 st.mem (d + 16)
  · obtain ⟨st1, hpre, hh, hfr⟩ := poolPre_growth B size d st hg (by omega) hdsig hok
    have hsig1 : loadU64 st1.mem (old - 16) = loadU64 st.mem (old - 16) :=
      loadU64_congr _ _ _ (fun i hi => hfr _ (by omega))
    have hsz1 : loadU64 st1.mem (old - 8) = loadU64 st.mem (old - 8) :=
      loadU64_congr _ _ _ (fun i hi => hfr _ (by omega))
    unfold poolRealloc
    rw [hpre]
    simp only
    rw [if_neg hold0, hsig1, hpsig, if_neg (by simp), hsz1, if_pos hshrink]
    exact ⟨rfl, hfr⟩
  · have hpre := poolPre_nogrowth B size d st (by omega)
    unfold poolRealloc
    rw [hpre]
    simp only
    rw [if_neg hold0, hpsig, if_neg (by simp), if_pos hshrink]
    exact ⟨rfl, fun x hx => rfl⟩

/-- C6 witness: in the concrete pool built by `c6setup` (init 64 over the
temporary allocator, one 8-byte block), reallocating that block to size 4
panics with the shrink message. -/
theorem c6_pool_shrink_panics_witness :
    (poolRealloc B0 4 c6q c6d c6st).1 = Res.fatal msgPoolShrink :=
  (c6_pool_shrink_panics B0 c6d c6q 4 c6st (by decide) (by decide) (by decide)
    (by decide) (by decide) (by decide) (by decide) (by decide)).1

theorem bytes8_copyMemory (m : Mem) (d s : Nat) (n : Nat) (h : Bytes8 m) :
    Bytes8 (copyMemory m d s n) := by
  induction n with
  | zero => exact h
  | succ k ih =>
    unfold copyMemory copyStep
    exact bytes8_store _ _ _ ih

theorem loadU64_eq_of_bytes (m1 m2 : Mem) (a b : Nat)
    (h : ∀ i, i < 8 → mread m1 (a + i) = mread m2 (b + i)) :
    loadU64 m1 a = loadU64 m2 b := by
  have h0 := h 0 (by omega)
  have h1 := h 1 (by omega)
  have h2 := h 2 (by omega)
  have h3 := h 3 (by omega)
  have h4 := h 4 (by omega)
  have h5 := h 5 (by omega)
  have h6 := h 6 (by omega)
  have h7 := h 7 (by omega)
  simp only [Nat.add_zero] at h0
  unfold loadU64
  rw [h0, h1, h2, h3, h4, h5, h6, h7]

theorem poolAlloc_nogrowth (B size d : Nat) (st : TempState)
    (hfit : (loadU64 st.mem (d + 24) + size + 16) % W ≤ loadU64 st.mem (d + 16)) :
    poolAlloc B size d st =
      (Res.ptr (loadU64 st.mem (d + 32) + loadU64 st.mem (d + 24) + 16),
       { st with mem := (storeU64 (storeU64 (storeU64 st.mem (d + 24)
           (loadU64 st.mem (d + 24) + size + 16))
           (loadU64 st.mem (d + 32) + loadU64 st.mem (d + 24)) POOL_SIG)
           (loadU64 st.mem (d + 32) + loadU64 st.mem (d + 24) + 8) size) }) := by
  simp only [poolAlloc]
  rw [poolPre_nogrowth B size d st hfit]

theorem poolPre_growth_content (B size d : Nat) (st : TempState)
    (hb : Bytes8 st.mem)
    (hg : (loadU64 st.mem (d + 24) + size + 16) % W > loadU64 st.mem (d + 16))
    (hd16 : 16 ≤ d)
    (hdsig : loadU64 st.mem (d - 16) = TEMP_SIG)
    (hdblk : d + loadU64 st.mem (d - 8) ≤ st.head)
    (hok : (st.head - B + ((loadU64 st.mem (d + 16) * 2) % W + 16) % W) % W ≤ CAP) :
    ∃ st1 : TempState, poolPre B size d st = Sum.inr (alignTo8 st.head + 16, st1) ∧
      st1.head = alignTo8 st.head + ((loadU64 st.mem (d + 16) * 2) % W + 16) % W ∧
      (∀ x, x < st.head → mread st1.mem x = mread st.mem x) ∧
      (∀ o, o < loadU64 st.mem (d - 8) →
        mread st1.mem (alignTo8 st.head + 16 + o) = mread st.mem (d + o)) ∧
      Bytes8 st1.mem := by
  have hha : st.head < alignTo8 st.head := alignTo8_gt st.head
  simp only [poolPre]
  rw [if_pos hg]
  rw [tempRealloc_success B ((loadU64 st.mem (d + 16) * 2) % W) d
    { st with growths := st.growths + 1 } (by omega) hdsig hok]
  have hb1 : Bytes8 (storeU64 (storeU64 st.mem (alignTo8 st.head) TEMP_SIG)
      (alignTo8 st.head + 8) ((loadU64 st.mem (d + 16) * 2) % W)) :=
    bytes8_storeU64 _ _ _ (bytes8_storeU64 _ _ _ hb)
  have hL : loadU64 (storeU64 (storeU64 st.mem (alignTo8 st.head) TEMP_SIG)
      (alignTo8 st.head + 8) ((loadU64 st.mem (d + 16) * 2) % W)) (d - 8) =
      loadU64 st.mem (d - 8) := by
    apply loadU64_congr
    intro i hi
    rw [mread_storeU64_out _ _ _ _ (Or.inl (by omega)),
      mread_storeU64_out _ _ _ _ (Or.inl (by omega))]
  refine ⟨_, rfl, rfl, ?_, ?_, ?_⟩
  · intro x hx
    simp only
    rw [copyMemory_out _ _ _ _ _ (Or.inl (by omega)),
      mread_storeU64_out _ _ _ _ (Or.inl (by omega)),
      mread_storeU64_out _ _ _ _ (Or.inl (by omega))]
  · intro o ho
    simp only
    rw [hL]
    rw [copyMemory_read _ _ _ _ (by omega) hb1 o ho,
      mread_storeU64_out _ _ _ _ (Or.inl (by omega)),
      mread_storeU64_out _ _ _ _ (Or.inl (by omega))]
  · simp only
    rw [hL]
    exact bytes8_copyMemory _ _ _ _ hb1

set_option maxHeartbeats 1000000 in
/-- C3 amended: on every successful Reallocate through the temporary,
arena, or pool strategy, the first `min(old_size, new_size)` bytes of the
old block are preserved in the returned block — the implementation copies
the full `old_size` bytes, and a pool Reallocate succeeds only when
`new_size ≥ old_size` (shrinking panics), so `old_size` is the minimum
there.  For the pool, the theorem covers both a request that fits the
stored capacity and one that fires the growth branch (twice, as the code
does).  Copying all `old_size` bytes is also why a shrinking temporary or
arena request overwrites bytes beyond the requested new size (the
counterexample). -/
theorem c3_realloc_preserves_old_bytes :
    (∀ B size old (st : TempState), Bytes8 st.mem → old ≠ 0 → 16 ≤ old →
      loadU64 st.mem (old - 16) = TEMP_SIG →
      old + loadU64 st.mem (old - 8) ≤ st.head →
      (st.head - B + (size + 16) % W) % W ≤ CAP →
      (tempRealloc B size old st).1 = Res.ptr (alignTo8 st.head + 16) ∧
      ∀ i, i < loadU64 st.mem (old - 8) →
        mread ((tempRealloc B size old st).2).mem (alignTo8 st.head + 16 + i) =
          mread st.mem (old + i)) ∧
    (∀ size old (a : ArenaState), Bytes8 a.mem → old ≠ 0 → 16 ≤ old →
      loadU64 a.mem (old - 16) = ARENA_SIG →
      old + loadU64 a.mem (old - 8) ≤ a.base + a.pos →
      (a.pos + (size + 16) % W) % W ≤ a.asize →
      (arenaRealloc size old a).1 = Res.ptr (a.base + a.pos + 16) ∧
      ∀ i, i < loadU64 a.mem (old - 8) →
        mread ((arenaRealloc size old a).2).mem (a.base + a.pos + 16 + i) =
          mread a.mem (old + i)) ∧
    (∀ B size old d (st : TempState), Bytes8 st.mem → old ≠ 0 → d + 40 ≤ old →
      loadU64 st.mem (old - 16) = POOL_SIG →
      loadU64 st.mem (old - 8) ≤ size →
      old + loadU64 st.mem (old - 8) ≤ loadU64 st.mem (d + 32) + loadU64 st.mem (d + 24) →
      (loadU64 st.mem (d + 24) + size + 16) % W ≤ loadU64 st.mem (d + 16) →
      (poolRealloc B size old d st).1 =
        Res.ptr (loadU64 st.mem (d + 32) + loadU64 st.mem (d + 24) + 16) ∧
      ∀ i, i < loadU64 st.mem (old - 8) →
        mread ((poolRealloc B size old d st).2).mem
          (loadU64 st.mem (d + 32) + loadU64 st.mem (d + 24) + 16 + i) =
          mread st.mem (old + i)) ∧
    (∀ B size old d (st : TempState), Bytes8 st.mem → B ≤ st.head → old ≠ 0 →
      16 ≤ d →
      loadU64 st.mem (d - 16) = TEMP_SIG →
      40 ≤ loadU64 st.mem (d - 8) →
      d + loadU64 st.mem (d - 8) ≤ st.head →
      d + 40 ≤ old →
      loadU64 st.mem (old - 16) = POOL_SIG →
      loadU64 st.mem (old - 8) ≤ size →
      old + loadU64 st.mem (old - 8) ≤ loadU64 st.mem (d + 32) + loadU64 st.mem (d + 24) →
      old + loadU64 st.mem (old - 8) ≤ st.head →
      (loadU64 st.mem (d + 24) + size + 16) % W > loadU64 st.mem (d + 16) →
      st.head - B + 2 * ((loadU64 st.mem (d + 16) * 2) % W + 16) + 8 ≤ CAP →
      (poolRealloc B size old d st).1 =
        Res.ptr (loadU64 st.mem (d + 32) + loadU64 st.mem (d + 24) + 16) ∧
      ∀ i, i < loadU64 st.mem (old - 8) →
        mread ((poolRealloc B size old d st).2).mem
          (loadU64 st.mem (d + 32) + loadU64 st.mem (d + 24) + 16 + i) =
          mread st.mem (old + i)) := by
  refine ⟨?_, ?_, ?_, ?_⟩
  · intro B size old st hb h0 h16 hsig hsrc hok
    have hoh : old ≤ st.head := by omega
    have hha : st.head < alignTo8 st.head := alignTo8_gt st.head
    rw [tempRealloc_success B size old st h0 hsig hok]
    have hsz : loadU64 (storeU64 (storeU64 st.mem (alignTo8 st.head) TEMP_SIG)
        (alignTo8 st.head + 8) size) (old - 8) = loadU64 st.mem (old - 8) := by
      apply loadU64_congr
      intro i hi
      rw [mread_storeU64_out _ _ _ _ (Or.inl (by omega)),
        mread_storeU64_out _ _ _ _ (Or.inl (by omega))]
    rw [hsz]
    refine ⟨rfl, fun i hi => ?_⟩
    have hb1 : Bytes8 (storeU64 (storeU64 st.mem (alignTo8 st.head) TEMP_SIG)
        (alignTo8 st.head + 8) size) :=
      bytes8_storeU64 _ _ _ (bytes8_storeU64 _ _ _ hb)
    rw [copyMemory_read _ _ _ _ (by omega) hb1 i hi,
      mread_storeU64_out _ _ _ _ (Or.inl (by omega)),
      mread_storeU64_out _ _ _ _ (Or.inl (by omega))]
  · intro size old a hb h0 h16 hsig hsrc hok
    have hoh : old ≤ a.base + a.pos := by omega
    rw [arenaRealloc_success size old a h0 hsig hok]
    have hsz : loadU64 (storeU64 (storeU64 a.mem (a.base + a.pos + 8) size)
        (a.base + a.pos) ARENA_SIG) (old - 8) = loadU64 a.mem (old - 8) := by
      apply loadU64_congr
      intro i hi
      rw [mread_storeU64_out _ _ _ _ (Or.inl (by omega)),
        mread_storeU64_out _ _ _ _ (Or.inl (by omega))]
    rw [hsz]
    refine ⟨rfl, fun i hi => ?_⟩
    have hb1 : Bytes8 (storeU64 (storeU64 a.mem (a.base + a.pos + 8) size)
        (a.base + a.pos) ARENA_SIG) :=
      bytes8_storeU64 _ _ _ (bytes8_storeU64 _ _ _ hb)
    rw [copyMemory_read _ _ _ _ (by omega) hb1 i hi,
      mread_storeU64_out _ _ _ _ (Or.inl (by omega)),
      mread_storeU64_out _ _ _ _ (Or.inl (by omega))]
  · intro B size old d st hb h0 hdo hpsig hnoshrink hsrc hfit
    unfold poolRealloc
    rw [poolPre_nogrowth B size d st hfit]
    simp only
    rw [if_neg h0, hpsig, if_neg (by simp), if_neg (by omega),
      poolAlloc_nogrowth B size d st hfit]
    simp only
    refine ⟨trivial, fun i hi => ?_⟩
    have hbM : Bytes8 (storeU64 (storeU64 (storeU64 st.mem (d + 24)
        (loadU64 st.mem (d + 24) + size + 16))
        (loadU64 st.mem (d + 32) + loadU64 st.mem (d + 24)) POOL_SIG)
        (loadU64 st.mem (d + 32) + loadU64 st.mem (d + 24) + 8) size) :=
      bytes8_storeU64 _ _ _ (bytes8_storeU64 _ _ _ (bytes8_storeU64 _ _ _ hb))
    rw [copyMemory_read _ _ _ _ (by omega) hbM i hi,
      mread_storeU64_out _ _ _ _ (Or.inl (by omega)),
      mread_storeU64_out _ _ _ _ (Or.inl (by omega)),
      mread_storeU64_out _ _ _ _ (Or.inr (by omega))]
  · intro B size old d st hb hB h0 hd16 hdsig h40 hdblk hdo hpsig hnoshrink hsrc hsrch hg hcap2
    have hw := cap_lt_w
    have hd40h : d + 40 ≤ st.head := by omega
    have holdh : old ≤ st.head := by omega
    have hok1 : (st.head - B + ((loadU64 st.mem (d + 16) * 2) % W + 16) % W) % W ≤ CAP := by
      rw [Nat.mod_eq_of_lt (show (loadU64 st.mem (d + 16) * 2) % W + 16 < W by omega),
        Nat.mod_eq_of_lt
          (show st.head - B + ((loadU64 st.mem (d + 16) * 2) % W + 16) < W by omega)]
      omega
    obtain ⟨st1, hpre1, hh1, hfr1, hcn1, hb1⟩ :=
      poolPre_growth_content B size d st hb hg hd16 hdsig hdblk hok1
    have hha1 : st.head < alignTo8 st.head := alignTo8_gt st.head
    have hh1' : st.head < st1.head := by
      rw [hh1]
      omega
    have e16 : loadU64 st1.mem (d + 16) = loadU64 st.mem (d + 16) :=
      loadU64_congr _ _ _ (fun i hi => hfr1 _ (by omega))
    have e24 : loadU64 st1.mem (d + 24) = loadU64 st.mem (d + 24) :=
      loadU64_congr _ _ _ (fun i hi => hfr1 _ (by omega))
    have edsig1 : loadU64 st1.mem (d - 16) = TEMP_SIG := by
      rw [loadU64_congr st1.mem st.mem (d - 16) (fun i hi => hfr1 _ (by omega))]
      exact hdsig
    have edblk1 : loadU64 st1.mem (d - 8) = loadU64 st.mem (d - 8) :=
      loadU64_congr _ _ _ (fun i hi => hfr1 _ (by omega))
    have hg1 : (loadU64 st1.mem (d + 24) + size + 16) % W > loadU64 st1.mem (d + 16) := by
      rw [e24, e16]
      exact hg
    have hal : alignTo8 st.head ≤ st.head + 8 := alignTo8_le st.head
    have hok2 : (st1.head - B + ((loadU64 st1.mem (d + 16) * 2) % W + 16) % W) % W ≤ CAP := by
      rw [e16, hh1,
        Nat.mod_eq_of_lt (show (loadU64 st.mem (d + 16) * 2) % W + 16 < W by omega)]
      rw [Nat.mod_eq_of_lt
        (show alignTo8 st.head + ((loadU64 st.mem (d + 16) * 2) % W + 16) - B +
          ((loadU64 st.mem (d + 16) * 2) % W + 16) < W by omega)]
      omega
    obtain ⟨st2, hpre2, hh2, hfr2, hcn2, hb2⟩ :=
      poolPre_growth_content B size d st1 hb1 hg1 hd16 edsig1
        (by rw [edblk1, hh1]; omega) hok2
    have hha2 : st1.head < alignTo8 st1.head := alignTo8_gt st1.head
    have hps : loadU64 st2.mem (alignTo8 st1.head + 16 + 24) = loadU64 st.mem (d + 24) := by
      apply loadU64_eq_of_bytes
      intro i hi
      have e1 : alignTo8 st1.head + 16 + 24 + i = alignTo8 st1.head + 16 + (24 + i) := by omega
      have e2 : d + 24 + i = d + (24 + i) := by omega
      rw [e1, e2, hcn2 (24 + i) (by omega), hfr1 (d + (24 + i)) (by omega)]
    have hpm : loadU64 st2.mem (alignTo8 st1.head + 16 + 32) = loadU64 st.mem (d + 32) := by
      apply loadU64_eq_of_bytes
      intro i hi
      have e1 : alignTo8 st1.head + 16 + 32 + i = alignTo8 st1.head + 16 + (32 + i) := by omega
      have e2 : d + 32 + i = d + (32 + i) := by omega
      rw [e1, e2, hcn2 (32 + i) (by omega), hfr1 (d + (32 + i)) (by omega)]
    have hPA : poolAlloc B size d st1 =
        (Res.ptr (loadU64 st2.mem (alignTo8 st1.head + 16 + 32) +
          loadU64 st2.mem (alignTo8 st1.head + 16 + 24) + 16),
         { st2 with mem := (storeU64 (storeU64 (storeU64 st2.mem
             (alignTo8 st1.head + 16 + 24)
             (loadU64 st2.mem (alignTo8 st1.head + 16 + 24) + size + 16))
             (loadU64 st2.mem (alignTo8 st1.head + 16 + 32) +
               loadU64 st2.mem (alignTo8 st1.head + 16 + 24)) POOL_SIG)
             (loadU64 st2.mem (alignTo8 st1.head + 16 + 32) +
               loadU64 st2.mem (alignTo8 st1.head + 16 + 24) + 8) size) }) := by
      simp only [poolAlloc]
      rw [hpre2]
    rw [hps, hpm] at hPA
    have hsg : loadU64 st1.mem (old - 16) = POOL_SIG := by
      rw [loadU64_congr st1.mem st.mem (old - 16) (fun i hi => hfr1 _ (by omega))]
      exact hpsig
    have hsz : loadU64 st1.mem (old - 8) = loadU64 st.mem (old - 8) :=
      loadU64_congr _ _ _ (fun i hi => hfr1 _ (by omega))
    unfold poolRealloc
    rw [hpre1]
    simp only
    rw [if_neg h0, hsg, if_neg (by simp), hsz, if_neg (by omega), hPA]
    simp only
    refine ⟨trivial, fun i hi => ?_⟩
    have hbM : Bytes8 (storeU64 (storeU64 (storeU64 st2.mem
        (alignTo8 st1.head + 16 + 24) (loadU64 st.mem (d + 24) + size + 16))
        (loadU64 st.mem (d + 32) + loadU64 st.mem (d + 24)) POOL_SIG)
        (loadU64 st.mem (d + 32) + loadU64 st.mem (d + 24) + 8) size) :=
      bytes8_storeU64 _ _ _ (bytes8_storeU64 _ _ _ (bytes8_storeU64 _ _ _ hb2))
    rw [copyMemory_read _ _ _ _ (by omega) hbM i hi,
      mread_storeU64_out _ _ _ _ (Or.inl (by omega)),
      mread_storeU64_out _ _ _ _ (Or.inl (by omega)),
      mread_storeU64_out _ _ _ _ (Or.inl (by omega)),
      hfr2 (old + i) (by omega), hfr1 (old + i) (by omega)]

/-- C3 amended witness: the first byte of a 2-byte block reallocated to
new size 1 is preserved in the returned block. -/
theorem c3_realloc_preserves_old_bytes_witness :
    mread ((tempRealloc 1024 1 1100 c3wst).2).mem (alignTo8 c3wst.head + 16 + 0) =
      mread c3wst.mem (1100 + 0) := by
  have hb : Bytes8 c3wst.mem := by
    apply bytes8_storeU64
    apply bytes8_storeU64
    intro x
    simp only [junk, mread, lookupW]
    omega
  exact (c3_realloc_preserves_old_bytes.1 1024 1 1100 c3wst hb (by decide) (by decide)
    (by decide) (by decide) (by decide)).2 0 (by decide)

end Buddy
